import Mathlib

/-!
# Verification of the inventory-management core

A shallow embedding of the repository's core components and proofs of the
frozen claims about them:

* the inventory-transaction ledger (`InventoryTransactionDAO.createTransaction`,
  src/unnamed/part_003, together with the mongoose schema validation of
  src/models/InventoryTransaction.js);
* the product stock coordinator (`ProductDAO.updateQuantity` /
  `ProductDAO.bulkUpdateQuantities` in src/daos/SupplierDAO.js (second unit),
  plus the create/update flows of `ProductController`, src/unnamed/part_010);
* the category tree engine (`CategoryDAO`, src/daos/CategoryDAO.js, and the
  `categorySchema` save hook of src/unnamed/part_006).

Conventions of the embedding:

* A mongo collection is a `List` of records; `findById` is `List.find?` on the
  id field.  Mongoose-generated object ids are passed in as explicit `newId`
  arguments.
* A thrown JS error is `Except.error` carrying the error's `name`, `message`
  and `statusCode` exactly as produced by `BaseDAO._handleError`
  (src/unnamed/part_004): errors whose `name` is not one of the specially
  handled ones keep `name = "Error"` and get `statusCode = 500`; mongoose
  validation failures become `name = "ValidationError"`, `statusCode = 400`.
  An `Except.error` result leaves the store argument untouched, which models
  the fact that the exception is raised before (or instead of) the write.
* JS truthiness on the relevant values: `0`, `""`, `null`/`undefined` are
  falsy; this is modelled by the `falsy*` helpers below.
* `BaseDAO.find` applies a sort and a default `limit` of 50; queries embed
  this as an insertion sort followed by `List.take 50`.
-/

/-- A JS error as normalized by `BaseDAO._handleError`. -/
structure JSError where
  name : String
  message : String
  statusCode : Int
deriving Repr, DecidableEq

/-- A generic `new Error(msg)` after `_handleError`'s default branch. -/
def jsError (msg : String) : JSError :=
  { name := "Error", message := msg, statusCode := 500 }

/-- A mongoose validation failure after `_handleError`. -/
def validationError (operation : String) : JSError :=
  { name := "ValidationError", message := "Validation failed for " ++ operation,
    statusCode := 400 }

/-- JS truthiness test for an optional string (`null`/`undefined`/`""` are falsy). -/
def falsyStr : Option String → Bool
  | none => true
  | some s => s == ""

/-- JS truthiness test for an optional integer (`null`/`undefined`/`0` are falsy). -/
def falsyInt : Option Int → Bool
  | none => true
  | some n => n == 0

/-! ## The inventory-transaction ledger -/

namespace Ledger

/-- The argument object of `InventoryTransactionDAO.createTransaction`
(src/unnamed/part_003, lines 18-43).  Fields the caller did not supply are
`none`. -/
structure TxInput where
  product : Option String
  type : Option String
  quantity : Option Int
  previousQuantity : Option Int
  newQuantity : Option Int
  reason : Option String
  performedBy : Option String
deriving Repr, DecidableEq

/-- A persisted inventory transaction (the claim-relevant fields of
`inventoryTransactionSchema`, src/models/InventoryTransaction.js). -/
structure Tx where
  product : String
  type : String
  quantity : Int
  previousQuantity : Int
  newQuantity : Int
  reason : String
  performedBy : String
deriving Repr, DecidableEq

/-- The `type` enum of `inventoryTransactionSchema`
(src/models/InventoryTransaction.js, lines 10-21).  Note that `"returned"` is
absent from the schema enum even though the DAO's sign normalization handles
it. -/
def typeEnum : List String :=
  ["stock_in", "stock_out", "adjustment", "damaged", "expired", "transfer"]

/-- The sign-normalization switch of `createTransaction`
(src/unnamed/part_003, lines 28-37): outbound types are forced to
`-|quantity|`, inbound types to `|quantity|`, anything else (only
`"transfer"` survives the schema enum) is passed through unchanged. -/
def normalizeQuantity (type : String) (quantity : Int) : Int :=
  if ["stock_out", "damaged", "expired", "returned"].contains type then
    -(|quantity|)
  else if ["stock_in", "adjustment"].contains type then
    |quantity|
  else
    quantity

/-- Schema validation run by `document.save()` inside `BaseDAO.create`:
`product`, `previousQuantity`, `newQuantity`, `reason`, `performedBy` are
required, `type` must be in the enum, `quantity` must be a non-zero integer
(`quantity` is an `Int` here, so only the non-zero part is a condition).
Mongoose treats the empty string as failing a `required` check on a String
path. -/
def txSchemaValid (t : Tx) : Bool :=
  t.product != "" && typeEnum.contains t.type && t.quantity != 0 &&
    t.reason != "" && t.performedBy != ""

/-- `InventoryTransactionDAO.createTransaction` (src/unnamed/part_003,
lines 18-43): the required-field loop over `["product", "type", "quantity"]`
with JS-falsy tests, then sign normalization, then `BaseDAO.create` which
validates against the schema and appends the document.  Returns the new
collection and the created document. -/
def createTransaction (txs : List Tx) (input : TxInput) :
    Except JSError (List Tx × Tx) :=
  if falsyStr input.product then .error (jsError "product is required")
  else if falsyStr input.type then .error (jsError "type is required")
  else if falsyInt input.quantity then .error (jsError "quantity is required")
  else
    let ty := input.type.getD ""
    let q := normalizeQuantity ty (input.quantity.getD 0)
    match input.previousQuantity, input.newQuantity, input.reason,
        input.performedBy with
    | some pq, some nq, some rsn, some user =>
        let tx : Tx := { product := input.product.getD "", type := ty,
                         quantity := q, previousQuantity := pq,
                         newQuantity := nq, reason := rsn,
                         performedBy := user }
        if txSchemaValid tx then .ok (txs ++ [tx], tx)
        else .error (validationError "CREATE_TRANSACTION")
    | _, _, _, _ => .error (validationError "CREATE_TRANSACTION")

end Ledger

/-! ## Products and the stock coordinator -/

namespace Stock

/-- The claim-relevant fields of `productSchema`
(src/models/InventoryTransaction.js, second unit). -/
structure Product where
  id : String
  name : String
  quantity : Int
deriving Repr, DecidableEq

/-- `BaseDAO.findById` on the products collection. -/
def pFindById (store : List Product) (id : String) : Option Product :=
  store.find? (fun p => p.id == id)

/-- An update payload for `BaseDAO.updateById` on a product (the fields the
claims exercise; absent fields are left alone, as `findByIdAndUpdate` only
sets the supplied paths). -/
structure ProductUpdate where
  name : Option String
  quantity : Option Int
deriving Repr, DecidableEq

/-- Apply an update payload to a product document. -/
def applyUpdate (p : Product) (u : ProductUpdate) : Product :=
  { p with name := u.name.getD p.name, quantity := u.quantity.getD p.quantity }

/-- The schema validators that `runValidators: true` applies to an update of
`quantity` (`min: 0` and integrality; `quantity` is an `Int` here, so only
non-negativity is a condition), per `productSchema.quantity`. -/
def productUpdateValid (u : ProductUpdate) : Bool :=
  match u.quantity with
  | some q => decide (0 ≤ q)
  | none => true

/-- `BaseDAO.updateById` (src/unnamed/part_004, lines 117-135) specialized to
the products collection: `findByIdAndUpdate` with `runValidators: true` and
`new: true`.  A validation failure throws; a missing id yields `none` (JS
`null`) without throwing. -/
def updateById (store : List Product) (id : String) (u : ProductUpdate) :
    Except JSError (List Product × Option Product) :=
  if productUpdateValid u then
    .ok (store.map (fun p => if p.id == id then applyUpdate p u else p),
         (pFindById store id).map (fun p => applyUpdate p u))
  else .error (validationError "UPDATE_BY_ID")

/-- The `quantityChange` descriptor returned by `ProductDAO.updateQuantity`. -/
structure QuantityChange where
  previous : Int
  current : Int
  difference : Int
  reason : String
deriving Repr, DecidableEq

/-- `ProductDAO.updateQuantity` (src/daos/SupplierDAO.js, second unit,
lines 641-666): resolve the product, remember its quantity, write the new
quantity through `updateById`, and return the updated product together with
the change descriptor.  No ledger entry is written here. -/
def updateQuantity (store : List Product) (productId : String)
    (quantity : Int) (reason : String) :
    Except JSError (List Product × Product × QuantityChange) :=
  match pFindById store productId with
  | none => .error (jsError "Product not found")
  | some product =>
      let previousQuantity := product.quantity
      match updateById store productId { name := none, quantity := some quantity } with
      | .error e => .error e
      | .ok (store', updated) =>
          .ok (store', updated.getD product,
               { previous := previousQuantity, current := quantity,
                 difference := quantity - previousQuantity, reason := reason })

/-- One entry of the `updates` argument of `bulkUpdateQuantities`. -/
structure UpdateEntry where
  productId : String
  quantity : Int
  reason : Option String
deriving Repr, DecidableEq

/-- The `{ successful, failed }` result object of the batch operations. -/
structure BulkResult where
  successful : List (String × Product × QuantityChange)
  failed : List (String × String)
deriving Repr, DecidableEq

/-- `ProductDAO.bulkUpdateQuantities` (src/daos/SupplierDAO.js, second unit,
lines 673-703): apply `updateQuantity` to each entry in order, collecting a
successful entry or a `{ productId, error.message }` failure per item; the
loop itself never throws, so the function is total. -/
def bulkUpdateQuantities (store : List Product) (updates : List UpdateEntry) :
    List Product × BulkResult :=
  updates.foldl
    (fun acc u =>
      match updateQuantity acc.1 u.productId u.quantity (u.reason.getD "Bulk update") with
      | .ok (st', prod, change) =>
          (st', { acc.2 with successful := acc.2.successful ++ [(u.productId, prod, change)] })
      | .error e =>
          (acc.1, { acc.2 with failed := acc.2.failed ++ [(u.productId, e.message)] }))
    (store, { successful := [], failed := [] })

/-- Combined persistent state of the stock coordinator: the products
collection and the transaction ledger. -/
structure AppState where
  products : List Product
  transactions : List Ledger.Tx
deriving Repr, DecidableEq

/-- The claim-relevant fields of a product-creation request body. -/
structure ProductInput where
  name : String
  quantity : Int
deriving Repr, DecidableEq

/-- Schema validation run by `save()` for a new product: `name` required,
`quantity` required with `min: 0` (integrality holds by the `Int` type). -/
def productInputValid (input : ProductInput) : Bool :=
  input.name != "" && decide (0 ≤ input.quantity)

/-- `ProductController.createProduct` (src/unnamed/part_010, lines 99-131):
persist the product; when its quantity is positive, append a `stock_in`
ledger entry with `previousQuantity = 0`.  The first component is the state
the request leaves behind (on a thrown error the state reached so far is
kept, as the controller merely reports the error). -/
def createProductFlow (st : AppState) (input : ProductInput) (newId : String) :
    AppState × Except JSError Product :=
  if productInputValid input then
    let p : Product := { id := newId, name := input.name, quantity := input.quantity }
    let products' := st.products ++ [p]
    if 0 < p.quantity then
      match Ledger.createTransaction st.transactions
        { product := some newId, type := some "stock_in",
          quantity := some p.quantity, previousQuantity := some 0,
          newQuantity := some p.quantity, reason := some "Initial stock",
          performedBy := some "System" } with
      | .ok (txs', _) => ({ products := products', transactions := txs' }, .ok p)
      | .error e => ({ products := products', transactions := st.transactions }, .error e)
    else ({ st with products := products' }, .ok p)
  else (st, .error (validationError "CREATE"))

/-- `ProductController.updateProduct` (src/unnamed/part_010, lines 137-179):
resolve the product, apply the request body through `updateById`, and when
the stored quantity changed append an `adjustment` ledger entry whose
`quantity` is the signed difference `updated.quantity - previousQuantity`
(which `createTransaction` then sign-normalizes). -/
def updateProductFlow (st : AppState) (id : String) (body : ProductUpdate) :
    AppState × Except JSError Product :=
  match pFindById st.products id with
  | none => (st, .error (jsError "Product not found"))
  | some existing =>
      let previousQuantity := existing.quantity
      match updateById st.products id body with
      | .error e => (st, .error e)
      | .ok (products', updatedOpt) =>
          let updated := updatedOpt.getD existing
          if previousQuantity != updated.quantity then
            match Ledger.createTransaction st.transactions
              { product := some updated.id, type := some "adjustment",
                quantity := some (updated.quantity - previousQuantity),
                previousQuantity := some previousQuantity,
                newQuantity := some updated.quantity,
                reason := some "Product update", performedBy := some "User" } with
            | .ok (txs', _) => ({ products := products', transactions := txs' }, .ok updated)
            | .error e => ({ products := products', transactions := st.transactions }, .error e)
          else ({ st with products := products' }, .ok updated)

/-- The stock-affecting operations a caller can issue against the
coordinator (the claim-relevant surface). -/
inductive StockOp where
  | updateQty (id : String) (q : Int) (reason : String)
  | bulkQty (updates : List UpdateEntry)
  | updateProduct (id : String) (body : ProductUpdate)
  | createProduct (input : ProductInput) (newId : String)
deriving Repr, DecidableEq

/-- The state transition of one operation: a thrown error leaves the state
as the operation left it (for the single-write operations that is the
original state, since the exception precedes the write). -/
def applyOp (st : AppState) : StockOp → AppState
  | .updateQty id q reason =>
      match updateQuantity st.products id q reason with
      | .ok (store', _, _) => { st with products := store' }
      | .error _ => st
  | .bulkQty updates => { st with products := (bulkUpdateQuantities st.products updates).1 }
  | .updateProduct id body => (updateProductFlow st id body).1
  | .createProduct input newId => (createProductFlow st input newId).1

/-- Every product quantity in the state is non-negative. -/
def NonNeg (st : AppState) : Prop := ∀ p ∈ st.products, 0 ≤ p.quantity

end Stock

/-! ## The category tree engine -/

namespace Tree

/-- The claim-relevant fields of `categorySchema` (src/unnamed/part_006,
lines 718-800). -/
structure Category where
  id : String
  name : String
  slug : String
  parent : Option String
  level : Int
  path : String
  sortOrder : Int
  status : String
deriving Repr, DecidableEq

/-- `BaseDAO.findById` on the categories collection. -/
def cFindById (store : List Category) (id : String) : Option Category :=
  store.find? (fun c => c.id == id)

/-- JS regex class character test for the slug pipeline: a character kept by
the removal step (word characters, whitespace, dashes; everything else is
stripped by the first `replace`). -/
def isWordChar (c : Char) : Bool := c.isAlphanum || c == '_'

/-- JS whitespace for the slug pipeline's second `replace` and `trim`. -/
def isSpaceChar (c : Char) : Bool :=
  c == ' ' || c == '\t' || c == '\n' || c == '\r'

/-!
The JS string primitives used by the tree engine (`split`, `join`,
`startsWith`, `toLowerCase`, `trim`) are implemented here by structural
recursion over character lists so that every operation evaluates inside
the kernel; each matches the JS behaviour for the single-character
separators and ASCII data the source uses.
-/

/-- `String.prototype.split` with a single-character separator, on
character lists (`"".split(sep)` is `[""]`, a trailing separator yields a
trailing empty segment — as in JS). -/
def strSplitAux (sep : Char) : List Char → List Char → List String
  | [], acc => [String.mk acc.reverse]
  | c :: rest, acc =>
      if c == sep then String.mk acc.reverse :: strSplitAux sep rest []
      else strSplitAux sep rest (c :: acc)

/-- `s.split(sep)` for a single-character separator. -/
def strSplitOn (sep : Char) (s : String) : List String :=
  strSplitAux sep s.toList []

/-- `Array.prototype.join(sep)`. -/
def strJoin (sep : String) : List String → String
  | [] => ""
  | part :: rest => rest.foldl (fun acc q => acc ++ sep ++ q) part

/-- Character-list prefix test (second argument is the candidate
prefix). -/
def strStartsWithAux : List Char → List Char → Bool
  | _, [] => true
  | [], _ :: _ => false
  | c :: cs, d :: ds => c == d && strStartsWithAux cs ds

/-- `s.startsWith(pattern)`. -/
def strStartsWith (s pattern : String) : Bool :=
  strStartsWithAux s.toList pattern.toList

/-- `s.toLowerCase()` (ASCII). -/
def strToLower (s : String) : String :=
  String.mk (s.toList.map Char.toLower)

/-- `s.trim()`: strip whitespace from both ends. -/
def strTrim (s : String) : String :=
  String.mk (((s.toList.dropWhile isSpaceChar).reverse.dropWhile
    isSpaceChar).reverse)

/-- Strict lexicographic comparison on character lists. -/
def strLtList : List Char → List Char → Bool
  | [], [] => false
  | [], _ :: _ => true
  | _ :: _, [] => false
  | c :: cs, d :: ds => if c == d then strLtList cs ds else decide (c < d)

/-- Lexicographic `≤` on strings (the name tiebreak of the mongo sorts). -/
def strLe (a b : String) : Bool := a == b || strLtList a.toList b.toList

/-- One step of the second `replace` of the slug pipeline: a run of dashes
and whitespace collapses to a single dash (the Bool tracks whether the
previous character belonged to such a run). -/
def collapseStep (acc : List Char × Bool) (c : Char) : List Char × Bool :=
  if c == '-' || isSpaceChar c then
    if acc.2 then acc else (acc.1 ++ ['-'], true)
  else (acc.1 ++ [c], false)

/-- The slug generation of the `categorySchema` save hook
(src/unnamed/part_006, lines 827-833): lowercase, strip characters outside
`[\w\s-]`, collapse `[-\s]+` runs to `-`, then `trim()` (which only removes
whitespace, of which none remains after the collapse). -/
def slugify (name : String) : String :=
  let lowered := strToLower name
  let cleaned := lowered.toList.filter (fun c => isWordChar c || isSpaceChar c || c == '-')
  strTrim (String.mk (cleaned.foldl collapseStep ([], false)).1)

/-- The claim-relevant fields of a category-creation request body. -/
structure CategoryInput where
  name : String
  parent : Option String
  sortOrder : Int
  status : String
deriving Repr, DecidableEq

/-- The `categorySchema.pre("save")` hook (src/unnamed/part_006,
lines 825-854) as run for a new document: the slug is regenerated from the
name, and `level`/`path` are derived from the resolved parent.  Note the
source builds the path from the parent's SLUG chain
(`parentCategory.path + "/" + parentCategory.slug`), and silently keeps the
schema defaults (`level 0`, `path ""`) when the parent id resolves to no
document. -/
def categoryPreSave (store : List Category) (input : CategoryInput)
    (newId : String) : Category :=
  let slug := slugify input.name
  match input.parent with
  | some pid =>
      match cFindById store pid with
      | some parentCategory =>
          { id := newId, name := input.name, slug := slug, parent := some pid,
            level := parentCategory.level + 1,
            path := if parentCategory.path != "" then
                      parentCategory.path ++ "/" ++ parentCategory.slug
                    else parentCategory.slug,
            sortOrder := input.sortOrder, status := input.status }
      | none =>
          { id := newId, name := input.name, slug := slug, parent := some pid,
            level := 0, path := "", sortOrder := input.sortOrder,
            status := input.status }
  | none =>
      { id := newId, name := input.name, slug := slug, parent := none,
        level := 0, path := "", sortOrder := input.sortOrder,
        status := input.status }

/-- `CategoryDAO.create` = `BaseDAO.create` on the categories collection:
`new Category(data).save()` runs the pre-save hook and then the unique
indexes on `name` and `slug` (a duplicate becomes a `DuplicateError`, code
11000 in `_handleError`). -/
def categoryCreate (store : List Category) (input : CategoryInput)
    (newId : String) : Except JSError (List Category × Category) :=
  let c := categoryPreSave store input newId
  if store.any (fun d => d.name == c.name || d.slug == c.slug) then
    .error { name := "DuplicateError", message := "name already exists",
             statusCode := 409 }
  else .ok (store ++ [c], c)

/-- Case-insensitive anchored match, modelling the mongo filter
`path: { $regex: "^" + pattern, $options: "i" }`. -/
def startsWithCI (s pattern : String) : Bool :=
  strStartsWith (strToLower s) (strToLower pattern)

/-- Insert into a list sorted by `le` (used to model the mongo `sort`
option; insertion keeps the original order of equal keys, matching a stable
sort). -/
def insertSorted (le : Category → Category → Bool) (c : Category) :
    List Category → List Category
  | [] => [c]
  | d :: rest => if le c d then c :: d :: rest else d :: insertSorted le c rest

/-- Stable sort by `le` (foldr of sorted insertion). -/
def sortCats (le : Category → Category → Bool) (l : List Category) :
    List Category :=
  l.foldr (fun c acc => insertSorted le c acc) []

/-- The `{ level: 1, sortOrder: 1, name: 1 }` sort key. -/
def byLevelSortName (a b : Category) : Bool :=
  if a.level != b.level then decide (a.level < b.level)
  else if a.sortOrder != b.sortOrder then decide (a.sortOrder < b.sortOrder)
  else strLe a.name b.name

/-- The `{ sortOrder: 1, name: 1 }` sort key. -/
def bySortName (a b : Category) : Bool :=
  if a.sortOrder != b.sortOrder then decide (a.sortOrder < b.sortOrder)
  else strLe a.name b.name

/-- The `{ level: 1 }` sort key. -/
def byLevel (a b : Category) : Bool := decide (a.level ≤ b.level)

/-- `CategoryDAO.getDescendants` (src/daos/CategoryDAO.js, lines 95-120):
resolve the category (throwing `"Category not found"` otherwise), then find
every active category whose `path` matches the anchored pattern
`category.path + "/" + categoryId` (or `categoryId` alone for an empty
path), sorted by (level, sortOrder, name) with `BaseDAO.find`'s default
limit of 50. -/
def getDescendants (store : List Category) (categoryId : String) :
    Except JSError (List Category) :=
  match cFindById store categoryId with
  | none => .error (jsError "Category not found")
  | some category =>
      let pathPattern := if category.path != "" then
                           category.path ++ "/" ++ categoryId
                         else categoryId
      let matched := store.filter
        (fun c => startsWithCI c.path pathPattern && c.status == "active")
      .ok ((sortCats byLevelSortName matched).take 50)

/-- `CategoryDAO.getAncestors` (src/daos/CategoryDAO.js, lines 127-149): a
missing category OR an empty path returns `[]` (no error); otherwise the
path is split on `"/"` and the categories with those ids are returned
sorted by level. -/
def getAncestors (store : List Category) (categoryId : String) :
    Except JSError (List Category) :=
  match cFindById store categoryId with
  | none => .ok []
  | some category =>
      if category.path == "" then .ok []
      else
        let ancestorIds := (strSplitOn '/' category.path).filter (fun s => s != "")
        if ancestorIds.length == 0 then .ok []
        else
          let docs := store.filter (fun c => ancestorIds.contains c.id)
          .ok ((sortCats byLevel docs).take 50)

/-- `CategoryDAO.getChildren` (src/daos/CategoryDAO.js, lines 74-87): the
active direct children, sorted by (sortOrder, name), default limit 50. -/
def getChildren (store : List Category) (parentId : String) : List Category :=
  (sortCats bySortName (store.filter
    (fun c => c.parent == some parentId && c.status == "active"))).take 50

/-- `findByIdAndUpdate` on the categories collection with an arbitrary
field rewrite: returns the rewritten store and the updated document
(`new: true`), or `none` when the id matches nothing.  The rewrite
functions used below never change the id. -/
def catUpdate (store : List Category) (id : String)
    (f : Category → Category) : List Category × Option Category :=
  (store.map (fun c => if c.id == id then f c else c),
   (cFindById store id).map f)

/-- The `min: 0` validator on `level` that `runValidators: true` applies to
updates that set `level`. -/
def levelValid (level : Int) : Bool := decide (0 ≤ level)

/-- `CategoryDAO._updateDescendantPaths` (src/daos/CategoryDAO.js,
lines 291-320), inner loop: one descendant's path is split on `"/"`, the
moved category's id is located in it, the relative suffix after it is glued
onto the new chain, and the level is shifted by the difference in segment
counts.  `newParentLevel` is accepted but never read, exactly as in the
source. -/
def updateDescendantsLoop (categoryId newParentPath : String) :
    List Category → List Category → Except JSError (List Category)
  | st, [] => .ok st
  | st, descendant :: rest =>
      let oldPathParts := strSplitOn '/' descendant.path
      match oldPathParts.indexOf? categoryId with
      | none => updateDescendantsLoop categoryId newParentPath st rest
      | some categoryIndex =>
          let relativePath :=
            strJoin "/" (oldPathParts.drop (categoryIndex + 1))
          let base := if newParentPath != "" then
                        newParentPath ++ "/" ++ categoryId
                      else categoryId
          let newPath := base ++ (if relativePath != "" then "/" ++ relativePath else "")
          let levelDifference : Int :=
            (oldPathParts.length : Int) -
              (((strSplitOn '/' newPath).filter (fun p => p != "")).length : Int)
          let newLevel := descendant.level - levelDifference
          if levelValid newLevel then
            updateDescendantsLoop categoryId newParentPath
              (catUpdate st descendant.id
                (fun c => { c with path := newPath, level := newLevel })).1
              rest
          else .error (validationError "UPDATE_BY_ID")

/-- `CategoryDAO._updateDescendantPaths` (src/daos/CategoryDAO.js,
lines 291-320): re-fetch the descendants (from the store in which the moved
category has ALREADY been rewritten) and rewrite each one's path and
level. -/
def updateDescendantPaths (store : List Category) (categoryId : String)
    (newParentPath : String) (newParentLevel : Int) :
    Except JSError (List Category) :=
  match getDescendants store categoryId with
  | .error e => .error e
  | .ok descendants =>
      let _ := newParentLevel
      updateDescendantsLoop categoryId newParentPath store descendants

/-- `CategoryDAO.moveCategory` (src/daos/CategoryDAO.js, lines 222-285):
resolve the category; with a new parent, resolve it, reject when it appears
among the category's descendants, recompute `level`/`path` from the parent
(id chain), persist the moved node, then cascade via
`_updateDescendantPaths`; with `null`, reset to root and cascade with the
empty path. -/
def moveCategory (store : List Category) (categoryId : String)
    (newParentId : Option String) (sortOrder : Option Int) :
    Except JSError (List Category × Option Category) :=
  match cFindById store categoryId with
  | none => .error (jsError "Category not found")
  | some _category =>
      match newParentId with
      | some pid =>
          match cFindById store pid with
          | none => .error (jsError "New parent category not found")
          | some newParent =>
              match getDescendants store categoryId with
              | .error e => .error e
              | .ok descendants =>
                  if descendants.any (fun d => d.id == pid) then
                    .error (jsError "Cannot move category to its own descendant")
                  else
                    let newLevel := newParent.level + 1
                    let newPath := if newParent.path != "" then
                                     newParent.path ++ "/" ++ pid
                                   else pid
                    if levelValid newLevel then
                      let upd := catUpdate store categoryId (fun c =>
                        { c with parent := some pid, level := newLevel,
                                 path := newPath,
                                 sortOrder := sortOrder.getD c.sortOrder })
                      match updateDescendantPaths upd.1 categoryId newPath newLevel with
                      | .error e => .error e
                      | .ok store2 => .ok (store2, upd.2)
                    else .error (validationError "UPDATE_BY_ID")
      | none =>
          let upd := catUpdate store categoryId (fun c =>
            { c with parent := none, level := 0, path := "",
                     sortOrder := sortOrder.getD c.sortOrder })
          match updateDescendantPaths upd.1 categoryId "" 0 with
          | .error e => .error e
          | .ok store2 => .ok (store2, upd.2)

/-- One entry of the `reorderCategories` argument. -/
structure OrderEntry where
  categoryId : String
  sortOrder : Int
deriving Repr, DecidableEq

/-- The `{ successful, failed }` result of `reorderCategories`; a
successful entry records `{ categoryId, sortOrder, category }` where the
category is `none` when the id matched no document (JS `null`, still
reported as a success by the source). -/
structure ReorderResult where
  successful : List (String × Int × Option Category)
  failed : List (String × String)
deriving Repr, DecidableEq

/-- `CategoryDAO.reorderCategories` (src/daos/CategoryDAO.js,
lines 433-462): each entry is applied independently through
`updateById(categoryId, { sortOrder })`.  `sortOrder` has no schema
validator, so with well-typed input the `catch` branch that would fill
`failed` is unreachable and every entry lands in `successful`. -/
def reorderCategories (store : List Category) (orders : List OrderEntry) :
    List Category × ReorderResult :=
  orders.foldl
    (fun acc order =>
      let upd := catUpdate acc.1 order.categoryId
        (fun c => { c with sortOrder := order.sortOrder })
      (upd.1, { acc.2 with
        successful := acc.2.successful ++ [(order.categoryId, order.sortOrder, upd.2)] }))
    (store, { successful := [], failed := [] })

/-- The child-relocation loop of `deleteWithChildren`: each direct child is
re-parented through `moveCategory`, counting the children handled. -/
def moveChildrenLoop (target : Option String) :
    List Category → List String → Except JSError (List Category × Nat)
  | st, [] => .ok (st, 0)
  | st, childId :: rest =>
      match moveCategory st childId target none with
      | .error e => .error e
      | .ok (st', _) =>
          match moveChildrenLoop target st' rest with
          | .error e => .error e
          | .ok (st'', n) => .ok (st'', n + 1)

/-- `CategoryDAO.deleteWithChildren` (src/daos/CategoryDAO.js,
lines 470-526): resolve the category, handle the children per the `action`
(`move_to_parent` and `move_to_root` re-parent each direct child through
`moveCategory`; `delete_all` hard-deletes every fetched descendant; any
other action throws), then delete the category itself. -/
def deleteWithChildren (store : List Category) (categoryId : String)
    (action : String) :
    Except JSError (List Category × Option Category × Nat) :=
  match cFindById store categoryId with
  | none => .error (jsError "Category not found")
  | some category =>
      let childrenIds := (getChildren store categoryId).map (fun c => c.id)
      let handled : Except JSError (List Category × Nat) :=
        if action == "move_to_parent" then
          moveChildrenLoop category.parent store childrenIds
        else if action == "move_to_root" then
          moveChildrenLoop none store childrenIds
        else if action == "delete_all" then
          match getDescendants store categoryId with
          | .error e => .error e
          | .ok descendants =>
              let descendantIds := descendants.map (fun d => d.id)
              .ok (store.filter (fun c => !(descendantIds.contains c.id)),
                   descendants.length)
        else
          .error (jsError
            "Invalid action. Use: move_to_parent, delete_all, or move_to_root")
      match handled with
      | .error e => .error e
      | .ok (store', childrenHandled) =>
          .ok (store'.filter (fun c => c.id != categoryId),
               cFindById store' categoryId, childrenHandled)

/-- One assembled node of `getCategoryTree`'s in-memory tree.  The JS code
nests plain objects by pointer sharing; the embedding records, per node,
the ids of the children attached to it (in document order), which carries
the same information. -/
structure TreeEntry where
  cat : Category
  childrenIds : List String
deriving Repr, DecidableEq

/-- `CategoryDAO.getCategoryTree` (src/daos/CategoryDAO.js, lines 157-213):
with a `rootId`, the root must resolve (else `"Root category not found"`)
and the node set is the root plus its path-matched descendants; `maxDepth`
caps the level at `rootLevel + maxDepth`.  The fetched documents (sorted,
default limit 50) are assembled into a parent-linked tree; a document whose
`parent` is set but absent from the fetched set is attached nowhere, and
the returned roots are the parentless documents (restricted to the root id
when one was given). -/
def getCategoryTree (store : List Category) (rootId : Option String)
    (maxDepth : Option Int) :
    Except JSError (List TreeEntry × List String) :=
  let rootCheck : Except JSError (Option Category) :=
    match rootId with
    | none => .ok none
    | some rid =>
        match cFindById store rid with
        | none => .error (jsError "Root category not found")
        | some rootCategory => .ok (some rootCategory)
  match rootCheck with
  | .error e => .error e
  | .ok rootOpt =>
      let inScope : Category → Bool := fun c =>
        match rootId, rootOpt with
        | some rid, some rootCategory =>
            let pathPattern := if rootCategory.path != "" then
                                 rootCategory.path ++ "/" ++ rid
                               else rid
            c.id == rid || startsWithCI c.path pathPattern
        | _, _ => true
      let depthOk : Category → Bool := fun c =>
        match maxDepth with
        | none => true
        | some d =>
            let startLevel := match rootOpt with
                              | some rootCategory => rootCategory.level
                              | none => 0
            decide (c.level ≤ startLevel + d)
      let documents := (sortCats byLevelSortName (store.filter
        (fun c => c.status == "active" && inScope c && depthOk c))).take 50
      let entries := documents.map (fun c =>
        { cat := c,
          childrenIds := (documents.filter
            (fun d => d.parent == some c.id)).map (fun d => d.id) })
      let roots := (documents.filter (fun d =>
        d.parent == none &&
          (rootId == none || some d.id == rootId))).map (fun d => d.id)
      .ok (entries, roots)

/-- `CategoryDAO.getBreadcrumb` (src/daos/CategoryDAO.js, lines 533-545):
resolve the category (throwing `"Category not found"` otherwise) and return
its ancestors followed by the category itself. -/
def getBreadcrumb (store : List Category) (categoryId : String) :
    Except JSError (List Category) :=
  match cFindById store categoryId with
  | none => .error (jsError "Category not found")
  | some category =>
      match getAncestors store categoryId with
      | .error e => .error e
      | .ok ancestors => .ok (ancestors ++ [category])

end Tree

/-! ## Shared lemmas -/

/-- Anatomy of a successful `createTransaction`: the record is appended, its
type is the caller's type, its quantity is the sign-normalized caller
quantity, and it passed schema validation. -/
theorem createTransaction_ok_spec (txs txs' : List Ledger.Tx)
    (input : Ledger.TxInput) (tx : Ledger.Tx)
    (h : Ledger.createTransaction txs input = .ok (txs', tx)) :
    txs' = txs ++ [tx] ∧ input.type = some tx.type ∧
    (∃ q, input.quantity = some q ∧
      tx.quantity = Ledger.normalizeQuantity tx.type q) ∧
    Ledger.txSchemaValid tx = true := by
  unfold Ledger.createTransaction at h
  split at h
  · exact absurd h (by simp)
  · split at h
    · exact absurd h (by simp)
    · split at h
      · exact absurd h (by simp)
      · rename_i hprod htype hqty
        split at h
        · rename_i pq nq rsn user hmatch
          dsimp only at h
          split at h
          · rename_i hvalid
            injection h with h1
            injection h1 with hlist hrec
            subst hlist
            subst hrec
            refine ⟨rfl, ?_, ⟨input.quantity.getD 0, ?_, rfl⟩, hvalid⟩
            · match hty : input.type with
              | some t => rfl
              | none => rw [hty] at htype; simp [falsyStr] at htype
            · match hq : input.quantity with
              | some n => rfl
              | none => rw [hq] at hqty; simp [falsyInt] at hqty
          · exact absurd h (by simp)
        · exact absurd h (by simp)

/-- `List.find?` commutes with a `List.map` whose function does not change
the value of the search predicate. -/
theorem find?_map_comm {α : Type} (m : α → α) (pred : α → Bool) (l : List α)
    (h : ∀ a, pred (m a) = pred a) :
    (l.map m).find? pred = (l.find? pred).map m := by
  induction l with
  | nil => rfl
  | cons a l ih =>
      by_cases hp : pred a
      · simp [List.find?_cons_of_pos, hp, h a]
      · simp only [Bool.not_eq_true] at hp
        simp [List.find?_cons_of_neg, hp, h a, ih]

/-! ## C10 — required-field validation in `createTransaction` -/

/-- C10: for every `createTransaction` input in which `product`, `type` or
`quantity` is absent or falsy — including `quantity = 0` — the call fails
with an error naming the field (thrown by the required-field loop before
`this.create` is reached, so nothing is persisted), and consequently no
transaction record is ever created with a zero quantity: a successful call
appends exactly one record whose quantity is non-zero. -/
theorem c10_required_fields (txs : List Ledger.Tx) (input : Ledger.TxInput) :
    (falsyStr input.product = true →
      Ledger.createTransaction txs input = .error (jsError "product is required")) ∧
    (falsyStr input.product = false → falsyStr input.type = true →
      Ledger.createTransaction txs input = .error (jsError "type is required")) ∧
    (falsyStr input.product = false → falsyStr input.type = false →
      falsyInt input.quantity = true →
      Ledger.createTransaction txs input = .error (jsError "quantity is required")) ∧
    (∀ txs' tx, Ledger.createTransaction txs input = .ok (txs', tx) →
      tx.quantity ≠ 0 ∧ txs' = txs ++ [tx]) := by
  refine ⟨?_, ?_, ?_, ?_⟩
  · intro h; simp [Ledger.createTransaction, h]
  · intro h1 h2; simp [Ledger.createTransaction, h1, h2]
  · intro h1 h2 h3; simp [Ledger.createTransaction, h1, h2, h3]
  · intro txs' tx h
    obtain ⟨happ, -, -, hvalid⟩ := createTransaction_ok_spec txs txs' input tx h
    refine ⟨?_, happ⟩
    unfold Ledger.txSchemaValid at hvalid
    simp only [Bool.and_eq_true, bne_iff_ne, ne_eq] at hvalid
    exact hvalid.1.1.2

/-- Witness for C10 at a concrete input with `quantity = 0`. -/
theorem c10_required_fields_witness :
    Ledger.createTransaction []
      { product := some "p1", type := some "stock_in", quantity := some 0,
        previousQuantity := some 0, newQuantity := some 0,
        reason := some "r", performedBy := some "u" } =
      .error (jsError "quantity is required") :=
  (c10_required_fields []
      { product := some "p1", type := some "stock_in", quantity := some 0,
        previousQuantity := some 0, newQuantity := some 0,
        reason := some "r", performedBy := some "u" }).2.2.1
    (by decide) (by decide) (by decide)

/-! ## C6 — sign normalization by transaction type -/

/-- Counterexample to C6 as stated: two `createTransaction` calls with the
same logical `{ type := "transfer", |quantity| := 5 }` (caller quantities
`5` and `-5`) both succeed and store DIFFERENT signs, because `transfer` is
passed through unnormalized; so "repeating the call with the same
`{type, |q|}` always yields the same stored sign" fails for `transfer`. -/
theorem c6_transfer_sign_not_idempotent :
    (Ledger.createTransaction []
        { product := some "p1", type := some "transfer", quantity := some 5,
          previousQuantity := some 10, newQuantity := some 15,
          reason := some "t", performedBy := some "u" }).map
      (fun r => r.2.quantity) = .ok 5 ∧
    (Ledger.createTransaction []
        { product := some "p1", type := some "transfer", quantity := some (-5),
          previousQuantity := some 10, newQuantity := some 5,
          reason := some "t", performedBy := some "u" }).map
      (fun r => r.2.quantity) = .ok (-5) ∧
    |(5 : Int)| = |(-5 : Int)| :=
  ⟨rfl, rfl, by decide⟩

/-- C6 (amended): for every successful `createTransaction`, the stored
quantity is `-|q|` for the types {stock_out, damaged, expired, returned},
`|q|` for {stock_in, adjustment}, and the caller-supplied signed `q` for
`transfer`; and for the sign-normalized types (everything but `transfer`)
two successful calls agreeing on `{type, |quantity|}` store the same
quantity, hence the same sign.  (As stated the claim extended the latter to
all types; `transfer` violates it, see the counterexample.) -/
theorem c6_sign_normalization (txs txs' : List Ledger.Tx)
    (input : Ledger.TxInput) (tx : Ledger.Tx) (q : Int)
    (hok : Ledger.createTransaction txs input = .ok (txs', tx))
    (hq : input.quantity = some q) :
    (tx.type ∈ ["stock_out", "damaged", "expired", "returned"] →
      tx.quantity = -|q|) ∧
    (tx.type ∈ ["stock_in", "adjustment"] → tx.quantity = |q|) ∧
    (tx.type = "transfer" → tx.quantity = q) ∧
    (∀ txs₂ txs₂' input₂ tx₂ q₂,
      Ledger.createTransaction txs₂ input₂ = .ok (txs₂', tx₂) →
      input₂.quantity = some q₂ → tx₂.type = tx.type → |q₂| = |q| →
      tx.type ≠ "transfer" → tx₂.quantity = tx.quantity) := by
  obtain ⟨-, -, ⟨q', hq', hnorm⟩, hvalid⟩ :=
    createTransaction_ok_spec txs txs' input tx hok
  rw [hq] at hq'
  injection hq' with hq'
  subst hq'
  have henum : tx.type = "stock_in" ∨ tx.type = "stock_out" ∨
      tx.type = "adjustment" ∨ tx.type = "damaged" ∨
      tx.type = "expired" ∨ tx.type = "transfer" := by
    have hc : Ledger.typeEnum.contains tx.type = true := by
      unfold Ledger.txSchemaValid at hvalid
      simp only [Bool.and_eq_true] at hvalid
      exact hvalid.1.1.1.2
    simp [Ledger.typeEnum] at hc
    tauto
  refine ⟨?_, ?_, ?_, ?_⟩
  · intro hmem
    rw [hnorm]
    simp only [List.mem_cons, List.mem_singleton, List.not_mem_nil,
      or_false] at hmem
    unfold Ledger.normalizeQuantity
    rcases hmem with h | h | h | h <;> rw [h, if_pos (by decide)]
  · intro hmem
    rw [hnorm]
    simp only [List.mem_cons, List.mem_singleton, List.not_mem_nil,
      or_false] at hmem
    unfold Ledger.normalizeQuantity
    rcases hmem with h | h <;>
      rw [h, if_neg (by decide), if_pos (by decide)]
  · intro ht
    rw [hnorm, ht]
    unfold Ledger.normalizeQuantity
    rw [if_neg (by decide), if_neg (by decide)]
  · intro txs₂ txs₂' input₂ tx₂ q₂ hok₂ hq₂ hty₂ habs hnt
    obtain ⟨-, -, ⟨q₂', hq₂', hnorm₂⟩, -⟩ :=
      createTransaction_ok_spec txs₂ txs₂' input₂ tx₂ hok₂
    rw [hq₂] at hq₂'
    injection hq₂' with hq₂'
    subst hq₂'
    rw [hnorm, hnorm₂, hty₂]
    unfold Ledger.normalizeQuantity
    rcases henum with h | h | h | h | h | h <;> rw [h]
    · rw [if_neg (by decide), if_pos (by decide), if_neg (by decide),
        if_pos (by decide), habs]
    · rw [if_pos (by decide), if_pos (by decide), habs]
    · rw [if_neg (by decide), if_pos (by decide), if_neg (by decide),
        if_pos (by decide), habs]
    · rw [if_pos (by decide), if_pos (by decide), habs]
    · rw [if_pos (by decide), if_pos (by decide), habs]
    · exact absurd h hnt

/-- Witness for C6 at a concrete `stock_out` input: the stored quantity is
`-|5|`. -/
theorem c6_sign_normalization_witness :
    ({ product := "p1", type := "stock_out", quantity := -5,
       previousQuantity := 10, newQuantity := 5, reason := "sale",
       performedBy := "u" } : Ledger.Tx).quantity = -|(5 : Int)| :=
  (c6_sign_normalization [] _
      { product := some "p1", type := some "stock_out", quantity := some 5,
        previousQuantity := some 10, newQuantity := some 5,
        reason := some "sale", performedBy := some "u" }
      _ 5 rfl rfl).1 (by decide)

/-! ## C5 — product quantities never go negative -/

/-- A successful product `updateById` preserves non-negativity of every
stored quantity: the validators only let a non-negative quantity through,
and untouched products keep their old quantity. -/
theorem updateById_ok_nonneg (store store' : List Stock.Product) (id : String)
    (u : Stock.ProductUpdate) (res : Option Stock.Product)
    (h : Stock.updateById store id u = .ok (store', res))
    (hnn : ∀ p ∈ store, 0 ≤ p.quantity) :
    ∀ p ∈ store', 0 ≤ p.quantity := by
  unfold Stock.updateById at h
  split at h
  · rename_i hvalid
    injection h with h'
    injection h' with hstore hres
    subst hstore
    intro p hp
    rw [List.mem_map] at hp
    obtain ⟨a, ha, rfl⟩ := hp
    by_cases hid : (a.id == id) = true
    · rw [if_pos hid]
      unfold Stock.applyUpdate
      match hu : u.quantity with
      | some q =>
          unfold Stock.productUpdateValid at hvalid
          rw [hu] at hvalid
          simpa using hvalid
      | none => simpa using hnn a ha
    · rw [if_neg hid]
      exact hnn a ha
  · exact absurd h (by simp)

/-- A successful `ProductDAO.updateQuantity` preserves non-negativity. -/
theorem updateQuantity_ok_nonneg (store : List Stock.Product) (id : String)
    (q : Int) (reason : String)
    (out : List Stock.Product × Stock.Product × Stock.QuantityChange)
    (h : Stock.updateQuantity store id q reason = .ok out)
    (hnn : ∀ p ∈ store, 0 ≤ p.quantity) :
    ∀ p ∈ out.1, 0 ≤ p.quantity := by
  unfold Stock.updateQuantity at h
  split at h
  · exact absurd h (by simp)
  · rename_i product hfind
    split at h
    · exact absurd h (by simp)
    · rename_i store' updated hupd
      injection h with h'
      subst h'
      exact updateById_ok_nonneg store store' id _ updated hupd hnn

/-- `ProductDAO.updateQuantity` on an existing product with a negative
target quantity is rejected by the `min: 0` validator that
`runValidators: true` enables on the quantity write. -/
theorem updateQuantity_neg_rejected (store : List Stock.Product)
    (id : String) (q : Int) (reason : String) (p : Stock.Product)
    (hfind : Stock.pFindById store id = some p) (hq : q < 0) :
    Stock.updateQuantity store id q reason =
      .error (validationError "UPDATE_BY_ID") := by
  unfold Stock.updateQuantity
  rw [hfind]
  unfold Stock.updateById
  rw [if_neg]
  unfold Stock.productUpdateValid
  simp only [decide_eq_true_eq]
  omega

/-- The loop of `bulkUpdateQuantities` preserves non-negativity of every
stored quantity, whatever the accumulated result object is. -/
theorem bulkLoop_nonneg (updates : List Stock.UpdateEntry) :
    ∀ (store : List Stock.Product) (res : Stock.BulkResult),
      (∀ p ∈ store, 0 ≤ p.quantity) →
      ∀ p ∈ (updates.foldl
        (fun acc u =>
          match Stock.updateQuantity acc.1 u.productId u.quantity
              (u.reason.getD "Bulk update") with
          | .ok (st', prod, change) =>
              (st', { acc.2 with successful :=
                        acc.2.successful ++ [(u.productId, prod, change)] })
          | .error e =>
              (acc.1, { acc.2 with failed :=
                          acc.2.failed ++ [(u.productId, e.message)] }))
        (store, res)).1, 0 ≤ p.quantity := by
  induction updates with
  | nil => intro store res hnn; simpa using hnn
  | cons u rest ih =>
      intro store res hnn
      rw [List.foldl_cons]
      rcases hu : Stock.updateQuantity store u.productId u.quantity
          (u.reason.getD "Bulk update") with e | out
      · simp only [hu]
        exact ih store _ hnn
      · obtain ⟨st', prod, change⟩ := out
        simp only [hu]
        exact ih st' _
          (updateQuantity_ok_nonneg store u.productId u.quantity _
            (st', prod, change) hu hnn)

/-- `ProductController.updateProduct` preserves non-negativity of every
product quantity. -/
theorem updateProductFlow_nonneg (st : Stock.AppState) (id : String)
    (body : Stock.ProductUpdate) (h : Stock.NonNeg st) :
    Stock.NonNeg (Stock.updateProductFlow st id body).1 := by
  unfold Stock.updateProductFlow
  split
  · exact h
  · rename_i existing hfind
    rcases hupd : Stock.updateById st.products id body with e | out
    · exact h
    · obtain ⟨products', updatedOpt⟩ := out
      have hnn' := updateById_ok_nonneg st.products products' id body
        updatedOpt hupd h
      dsimp only
      split
      · split
        · intro p hp; exact hnn' p hp
        · intro p hp; exact hnn' p hp
      · intro p hp; exact hnn' p hp

/-- `ProductController.createProduct` preserves non-negativity of every
product quantity. -/
theorem createProductFlow_nonneg (st : Stock.AppState)
    (input : Stock.ProductInput) (newId : String) (h : Stock.NonNeg st) :
    Stock.NonNeg (Stock.createProductFlow st input newId).1 := by
  unfold Stock.createProductFlow
  split
  · rename_i hvalid
    have hq : 0 ≤ input.quantity := by
      unfold Stock.productInputValid at hvalid
      simp only [Bool.and_eq_true, decide_eq_true_eq] at hvalid
      exact hvalid.2
    have happ : ∀ p ∈ st.products ++
        [({ id := newId, name := input.name,
            quantity := input.quantity } : Stock.Product)],
        0 ≤ p.quantity := by
      intro p hp
      rcases List.mem_append.mp hp with hin | hone
      · exact h p hin
      · rw [List.mem_singleton] at hone
        subst hone
        exact hq
    dsimp only
    split
    · split
      · intro p hp; exact happ p hp
      · intro p hp; exact happ p hp
    · intro p hp; exact happ p hp
  · exact h

/-- Every stock-affecting operation preserves non-negativity of every
product quantity. -/
theorem applyOp_nonneg (st : Stock.AppState) (o : Stock.StockOp)
    (h : Stock.NonNeg st) : Stock.NonNeg (Stock.applyOp st o) := by
  cases o with
  | updateQty id q reason =>
      rcases hu : Stock.updateQuantity st.products id q reason with e | out
      · simpa only [Stock.applyOp, hu] using h
      · obtain ⟨store', prod, change⟩ := out
        simp only [Stock.applyOp, hu]
        intro p hp
        exact updateQuantity_ok_nonneg st.products id q reason
          (store', prod, change) hu h p hp
  | bulkQty updates =>
      simp only [Stock.applyOp]
      intro p hp
      exact bulkLoop_nonneg updates st.products
        { successful := [], failed := [] } h p hp
  | updateProduct id body =>
      simp only [Stock.applyOp]
      exact updateProductFlow_nonneg st id body h
  | createProduct input newId =>
      simp only [Stock.applyOp]
      exact createProductFlow_nonneg st input newId h

/-- C5: no sequence of `updateQuantity` calls, bulk quantity updates, or
transaction-bearing controller operations (product create/update) drives
any product quantity below zero; and an `updateQuantity` whose target
quantity is negative is rejected with a thrown validation error and leaves
the state unchanged (never clamped). -/
theorem c5_quantity_nonneg (st : Stock.AppState) (ops : List Stock.StockOp)
    (h : Stock.NonNeg st) :
    Stock.NonNeg (ops.foldl Stock.applyOp st) ∧
    ∀ pid q reason p, Stock.pFindById st.products pid = some p → q < 0 →
      Stock.updateQuantity st.products pid q reason =
        .error (validationError "UPDATE_BY_ID") ∧
      Stock.applyOp st (Stock.StockOp.updateQty pid q reason) = st := by
  constructor
  · induction ops generalizing st with
    | nil => simpa using h
    | cons o rest ih =>
        rw [List.foldl_cons]
        exact ih (Stock.applyOp st o) (applyOp_nonneg st o h)
  · intro pid q reason p hfind hq
    have herr := updateQuantity_neg_rejected st.products pid q reason p hfind hq
    refine ⟨herr, ?_⟩
    simp only [Stock.applyOp, herr]

/-- Witness for C5 at a concrete state, operation list and negative-target
update. -/
theorem c5_quantity_nonneg_witness :
    Stock.updateQuantity
        [({ id := "p1", name := "Widget", quantity := 10 } : Stock.Product)]
        "p1" (-1) "oops" = .error (validationError "UPDATE_BY_ID") ∧
    Stock.applyOp
        { products := [{ id := "p1", name := "Widget", quantity := 10 }],
          transactions := [] }
        (Stock.StockOp.updateQty "p1" (-1) "oops") =
      { products := [{ id := "p1", name := "Widget", quantity := 10 }],
        transactions := [] } :=
  (c5_quantity_nonneg
      { products := [{ id := "p1", name := "Widget", quantity := 10 }],
        transactions := [] }
      [Stock.StockOp.updateQty "p1" 4 "restock"]
      (by intro p hp; simp only [List.mem_singleton] at hp; subst hp; decide)).2
    "p1" (-1) "oops" { id := "p1", name := "Widget", quantity := 10 }
    (by decide) (by decide)

/-! ## C7 — batch partial failure in `bulkUpdateQuantities` -/

/-- `pFindById` looks only at ids, so it commutes with the per-id rewrite
performed by a product `updateById`. -/
theorem pFindById_map_update (store : List Stock.Product) (x id : String)
    (g : Stock.Product → Stock.Product) (hg : ∀ p, (g p).id = p.id) :
    Stock.pFindById (store.map (fun c => if c.id == x then g c else c)) id =
      (Stock.pFindById store id).map
        (fun c => if c.id == x then g c else c) := by
  unfold Stock.pFindById
  refine find?_map_comm _ _ store ?_
  intro a
  by_cases hx : (a.id == x) = true
  · rw [if_pos hx, hg a]
  · rw [if_neg hx]

/-- Counterexample to C7 as stated: with one entry for an existing product
and one for a missing product, but a NEGATIVE requested quantity on the
existing one, `bulkUpdateQuantities` reports zero successes and two
failures (the quantity validator rejects the first entry), not exactly one
of each. -/
theorem c7_negative_quantity_two_failures :
    (Stock.bulkUpdateQuantities
        [({ id := "p1", name := "Widget", quantity := 10 } : Stock.Product)]
        [{ productId := "p1", quantity := -1, reason := none },
         { productId := "bad", quantity := 5, reason := none }]).2 =
      { successful := [],
        failed := [("p1", "Validation failed for UPDATE_BY_ID"),
                   ("bad", "Product not found")] } ∧
    Stock.pFindById
        [({ id := "p1", name := "Widget", quantity := 10 } : Stock.Product)]
        "p1" = some { id := "p1", name := "Widget", quantity := 10 } ∧
    Stock.pFindById
        [({ id := "p1", name := "Widget", quantity := 10 } : Stock.Product)]
        "bad" = none :=
  ⟨rfl, rfl, rfl⟩

/-- C7 (amended): for an updates list with one entry for an existing
product requesting a valid (non-negative) quantity and one entry for a
non-existent product, in either order, `bulkUpdateQuantities` returns
exactly one successful and one failed entry, updates the existing product
to the requested quantity, and (being a total function here) propagates no
exception for the failing entry.  (As stated the claim also covered
negative requested quantities, where the valid-product entry fails too;
see the counterexample.) -/
theorem c7_bulk_partial_failure (store : List Stock.Product)
    (e₁ e₂ : Stock.UpdateEntry) (p : Stock.Product)
    (h1 : Stock.pFindById store e₁.productId = some p)
    (h2 : Stock.pFindById store e₂.productId = none)
    (hq : 0 ≤ e₁.quantity) :
    ((Stock.bulkUpdateQuantities store [e₁, e₂]).2.successful.length = 1 ∧
     (Stock.bulkUpdateQuantities store [e₁, e₂]).2.failed =
       [(e₂.productId, "Product not found")] ∧
     Stock.pFindById (Stock.bulkUpdateQuantities store [e₁, e₂]).1 e₁.productId =
       some { p with quantity := e₁.quantity }) ∧
    ((Stock.bulkUpdateQuantities store [e₂, e₁]).2.successful.length = 1 ∧
     (Stock.bulkUpdateQuantities store [e₂, e₁]).2.failed =
       [(e₂.productId, "Product not found")] ∧
     Stock.pFindById (Stock.bulkUpdateQuantities store [e₂, e₁]).1 e₁.productId =
       some { p with quantity := e₁.quantity }) := by
  have hpred : (p.id == e₁.productId) = true := by
    have h1' : List.find? (fun q => q.id == e₁.productId) store = some p := h1
    have h1'' := List.find?_some h1'
    exact h1''
  have hvalid : Stock.productUpdateValid
      { name := none, quantity := some e₁.quantity } = true := by
    unfold Stock.productUpdateValid
    simpa using hq
  have happly : Stock.applyUpdate p { name := none, quantity := some e₁.quantity } =
      { p with quantity := e₁.quantity } := rfl
  have hstep1 : ∀ r, Stock.updateQuantity store e₁.productId e₁.quantity r =
      .ok (store.map (fun c => if c.id == e₁.productId then
              Stock.applyUpdate c { name := none, quantity := some e₁.quantity }
            else c),
           { p with quantity := e₁.quantity },
           { previous := p.quantity, current := e₁.quantity,
             difference := e₁.quantity - p.quantity, reason := r }) := by
    intro r
    unfold Stock.updateQuantity Stock.updateById
    rw [h1, if_pos hvalid]
    dsimp only
    simp [happly]
  have hstep2 : ∀ r, Stock.updateQuantity store e₂.productId e₂.quantity r =
      .error (jsError "Product not found") := by
    intro r
    unfold Stock.updateQuantity
    rw [h2]
  have hfindAfter : Stock.pFindById
      (store.map (fun c => if c.id == e₁.productId then
          Stock.applyUpdate c { name := none, quantity := some e₁.quantity }
        else c)) e₁.productId = some { p with quantity := e₁.quantity } := by
    rw [pFindById_map_update store e₁.productId e₁.productId
      (fun c => Stock.applyUpdate c { name := none, quantity := some e₁.quantity })
      (fun _ => rfl), h1]
    simp only [Option.map_some']
    rw [if_pos hpred, happly]
  have hstep2' : ∀ r, Stock.updateQuantity
      (store.map (fun c => if c.id == e₁.productId then
          Stock.applyUpdate c { name := none, quantity := some e₁.quantity }
        else c)) e₂.productId e₂.quantity r =
      .error (jsError "Product not found") := by
    intro r
    unfold Stock.updateQuantity
    rw [pFindById_map_update store e₁.productId e₂.productId
      (fun c => Stock.applyUpdate c { name := none, quantity := some e₁.quantity })
      (fun _ => rfl), h2]
    rfl
  constructor
  · unfold Stock.bulkUpdateQuantities
    rw [List.foldl_cons]
    rw [hstep1 (e₁.reason.getD "Bulk update")]
    dsimp only
    rw [List.foldl_cons]
    rw [hstep2' (e₂.reason.getD "Bulk update")]
    dsimp only
    rw [List.foldl_nil]
    exact ⟨rfl, rfl, hfindAfter⟩
  · unfold Stock.bulkUpdateQuantities
    rw [List.foldl_cons]
    rw [hstep2 (e₂.reason.getD "Bulk update")]
    dsimp only
    rw [List.foldl_cons]
    rw [hstep1 (e₁.reason.getD "Bulk update")]
    dsimp only
    rw [List.foldl_nil]
    exact ⟨rfl, rfl, hfindAfter⟩

/-- Witness for C7 at a concrete store and update list. -/
theorem c7_bulk_partial_failure_witness :
    (Stock.bulkUpdateQuantities
        [({ id := "p1", name := "Widget", quantity := 10 } : Stock.Product)]
        [{ productId := "p1", quantity := 5, reason := none },
         { productId := "bad", quantity := 5, reason := none }]).2.successful.length = 1 :=
  ((c7_bulk_partial_failure
      [({ id := "p1", name := "Widget", quantity := 10 } : Stock.Product)]
      { productId := "p1", quantity := 5, reason := none }
      { productId := "bad", quantity := 5, reason := none }
      { id := "p1", name := "Widget", quantity := 10 }
      rfl rfl (by decide)).1).1

/-! ## C8 — not-found behaviour of the id-taking tree operations -/

/-- Counterexample to C8 as stated: `getAncestors` with an id that resolves
to no category does NOT fail with a not-found error — it silently returns
an empty list (src/daos/CategoryDAO.js line 130 returns `[]` when the
category is missing). -/
theorem c8_getAncestors_missing_returns_empty :
    Tree.cFindById
        [({ id := "c1", name := "Root", slug := "root", parent := none,
            level := 0, path := "", sortOrder := 0,
            status := "active" } : Tree.Category)] "missing" = none ∧
    Tree.getAncestors
        [({ id := "c1", name := "Root", slug := "root", parent := none,
            level := 0, path := "", sortOrder := 0,
            status := "active" } : Tree.Category)] "missing" =
      .ok [] :=
  ⟨rfl, rfl⟩

/-- C8 (amended): every id-taking Category Tree Engine operation EXCEPT
`getAncestors` — that is, `getDescendants`, `getCategoryTree`,
`moveCategory`, `deleteWithChildren` and `getBreadcrumb` — fails on an id
that resolves to no category with the not-found error, thrown before any
write is attempted (the error is produced by the initial existence check,
so no store is returned and every category document is left unchanged);
`getAncestors` instead returns an empty list without failing. -/
theorem c8_missing_id_not_found (store : List Tree.Category) (id : String)
    (h : Tree.cFindById store id = none) :
    Tree.getDescendants store id = .error (jsError "Category not found") ∧
    (∀ np so, Tree.moveCategory store id np so =
      .error (jsError "Category not found")) ∧
    (∀ action, Tree.deleteWithChildren store id action =
      .error (jsError "Category not found")) ∧
    Tree.getBreadcrumb store id = .error (jsError "Category not found") ∧
    (∀ d, Tree.getCategoryTree store (some id) d =
      .error (jsError "Root category not found")) ∧
    Tree.getAncestors store id = .ok [] := by
  refine ⟨?_, ?_, ?_, ?_, ?_, ?_⟩
  · unfold Tree.getDescendants
    rw [h]
  · intro np so
    unfold Tree.moveCategory
    rw [h]
  · intro action
    unfold Tree.deleteWithChildren
    rw [h]
  · unfold Tree.getBreadcrumb
    rw [h]
  · intro d
    unfold Tree.getCategoryTree
    dsimp only
    rw [h]
  · unfold Tree.getAncestors
    rw [h]

/-- Witness for C8 at a concrete store and missing id. -/
theorem c8_missing_id_not_found_witness :
    Tree.getDescendants
        [({ id := "c1", name := "Root", slug := "root", parent := none,
            level := 0, path := "", sortOrder := 0,
            status := "active" } : Tree.Category)] "nope" =
      .error (jsError "Category not found") :=
  (c8_missing_id_not_found
      [({ id := "c1", name := "Root", slug := "root", parent := none,
          level := 0, path := "", sortOrder := 0,
          status := "active" } : Tree.Category)] "nope" rfl).1

/-! ## C9 — `reorderCategories` touches only `sortOrder` -/

/-- `b` agrees with `a` on every category field except possibly
`sortOrder`. -/
def sameExceptSortOrder (a b : Tree.Category) : Prop :=
  b.id = a.id ∧ b.name = a.name ∧ b.slug = a.slug ∧ b.parent = a.parent ∧
  b.level = a.level ∧ b.path = a.path ∧ b.status = a.status

theorem sameExceptSortOrder_refl (a : Tree.Category) :
    sameExceptSortOrder a a :=
  ⟨rfl, rfl, rfl, rfl, rfl, rfl, rfl⟩

theorem sameExceptSortOrder_trans {a b c : Tree.Category}
    (h₁ : sameExceptSortOrder a b) (h₂ : sameExceptSortOrder b c) :
    sameExceptSortOrder a c := by
  obtain ⟨i1, n1, s1, p1, l1, q1, t1⟩ := h₁
  obtain ⟨i2, n2, s2, p2, l2, q2, t2⟩ := h₂
  exact ⟨i2.trans i1, n2.trans n1, s2.trans s1, p2.trans p1, l2.trans l1,
    q2.trans q1, t2.trans t1⟩

/-- Composition of two `List.Forall₂` relations along a middle list. -/
theorem forall2_trans {α : Type} {R S T : α → α → Prop}
    (h : ∀ a b c, R a b → S b c → T a c) :
    ∀ {l₁ l₂ l₃ : List α}, List.Forall₂ R l₁ l₂ → List.Forall₂ S l₂ l₃ →
      List.Forall₂ T l₁ l₃ := by
  intro l₁ l₂ l₃ h₁
  induction h₁ generalizing l₃ with
  | nil =>
      intro h₂
      cases h₂
      exact List.Forall₂.nil
  | cons hr _ ih =>
      intro h₂
      cases h₂ with
      | cons hs htail => exact List.Forall₂.cons (h _ _ _ hr hs) (ih htail)

/-- The store after the `reorderCategories` loop: each entry rewrites only
the named id's `sortOrder`. -/
def applyOrders (store : List Tree.Category) (orders : List Tree.OrderEntry) :
    List Tree.Category :=
  orders.foldl
    (fun st o => (Tree.catUpdate st o.categoryId
      (fun c => { c with sortOrder := o.sortOrder })).1)
    store

/-- The store component of `reorderCategories` is the `applyOrders` fold,
independently of the accumulated result object. -/
theorem reorderCategories_fst (orders : List Tree.OrderEntry) :
    ∀ (store : List Tree.Category) (res : Tree.ReorderResult),
      (orders.foldl
        (fun acc order =>
          let upd := Tree.catUpdate acc.1 order.categoryId
            (fun c => { c with sortOrder := order.sortOrder })
          (upd.1, { acc.2 with successful :=
            acc.2.successful ++
              [(order.categoryId, order.sortOrder, upd.2)] }))
        (store, res)).1 = applyOrders store orders := by
  induction orders with
  | nil => intro store res; rfl
  | cons o rest ih =>
      intro store res
      rw [List.foldl_cons]
      exact ih _ _

/-- Every entry of the `reorderCategories` loop is reported in
`successful`; `failed` stays empty (the catch branch is unreachable with
well-typed input, as `sortOrder` has no validator). -/
theorem reorderCategories_counts (orders : List Tree.OrderEntry) :
    ∀ (store : List Tree.Category) (res : Tree.ReorderResult),
      ((orders.foldl
        (fun acc order =>
          let upd := Tree.catUpdate acc.1 order.categoryId
            (fun c => { c with sortOrder := order.sortOrder })
          (upd.1, { acc.2 with successful :=
            acc.2.successful ++
              [(order.categoryId, order.sortOrder, upd.2)] }))
        (store, res)).2.successful.length =
          res.successful.length + orders.length) ∧
      ((orders.foldl
        (fun acc order =>
          let upd := Tree.catUpdate acc.1 order.categoryId
            (fun c => { c with sortOrder := order.sortOrder })
          (upd.1, { acc.2 with successful :=
            acc.2.successful ++
              [(order.categoryId, order.sortOrder, upd.2)] }))
        (store, res)).2.failed = res.failed) := by
  induction orders with
  | nil => intro store res; exact ⟨rfl, rfl⟩
  | cons o rest ih =>
      intro store res
      rw [List.foldl_cons]
      obtain ⟨hlen, hfail⟩ := ih
        (Tree.catUpdate store o.categoryId
          (fun c => { c with sortOrder := o.sortOrder })).1
        { res with successful := res.successful ++
            [(o.categoryId, o.sortOrder,
              (Tree.catUpdate store o.categoryId
                (fun c => { c with sortOrder := o.sortOrder })).2)] }
      refine ⟨?_, hfail⟩
      rw [hlen]
      simp
      omega

/-- One `applyOrders` step relates the stores pointwise: only the named
id's `sortOrder` may change. -/
theorem applyOrders_step_forall2 (st : List Tree.Category)
    (o : Tree.OrderEntry) :
    List.Forall₂
      (fun a b => sameExceptSortOrder a b ∧ (o.categoryId ≠ a.id → b = a))
      st
      (Tree.catUpdate st o.categoryId
        (fun c => { c with sortOrder := o.sortOrder })).1 := by
  unfold Tree.catUpdate
  rw [List.forall₂_map_right_iff]
  rw [List.forall₂_same]
  intro a _
  by_cases hid : (a.id == o.categoryId) = true
  · rw [if_pos hid]
    refine ⟨⟨rfl, rfl, rfl, rfl, rfl, rfl, rfl⟩, ?_⟩
    intro hne
    have hida : a.id = o.categoryId := by simpa using hid
    exact absurd hida.symm hne
  · rw [if_neg hid]
    exact ⟨sameExceptSortOrder_refl a, fun _ => rfl⟩

/-- `applyOrders` relates the initial and final stores pointwise: every
field except `sortOrder` is preserved, and a category named by no entry is
completely unchanged. -/
theorem applyOrders_forall2 (orders : List Tree.OrderEntry) :
    ∀ st : List Tree.Category,
      List.Forall₂
        (fun a b => sameExceptSortOrder a b ∧
          ((∀ o ∈ orders, o.categoryId ≠ a.id) → b = a))
        st (applyOrders st orders) := by
  induction orders with
  | nil =>
      intro st
      rw [applyOrders, List.foldl_nil, List.forall₂_same]
      intro a _
      exact ⟨sameExceptSortOrder_refl a, fun _ => rfl⟩
  | cons o rest ih =>
      intro st
      have hstep := applyOrders_step_forall2 st o
      have htail := ih (Tree.catUpdate st o.categoryId
        (fun c => { c with sortOrder := o.sortOrder })).1
      have hmid : ∀ a b c : Tree.Category,
          (sameExceptSortOrder a b ∧ (o.categoryId ≠ a.id → b = a)) →
          (sameExceptSortOrder b c ∧
            ((∀ o' ∈ rest, o'.categoryId ≠ b.id) → c = b)) →
          sameExceptSortOrder a c ∧
            ((∀ o' ∈ o :: rest, o'.categoryId ≠ a.id) → c = a) := by
        intro a b c hab hbc
        refine ⟨sameExceptSortOrder_trans hab.1 hbc.1, ?_⟩
        intro hall
        have hb : b = a := hab.2 (hall o (List.mem_cons_self o rest))
        subst hb
        exact hbc.2 (fun o' ho' => hall o' (List.mem_cons_of_mem o ho'))
      exact forall2_trans hmid hstep htail

/-- After one `applyOrders` step for entry `e`, every stored category with
id `e.categoryId` has `sortOrder = e.sortOrder`. -/
theorem applyOrders_step_sets (st : List Tree.Category)
    (e : Tree.OrderEntry) :
    ∀ c ∈ (Tree.catUpdate st e.categoryId
        (fun c => { c with sortOrder := e.sortOrder })).1,
      c.id = e.categoryId → c.sortOrder = e.sortOrder := by
  unfold Tree.catUpdate
  intro c hc hcid
  rw [List.mem_map] at hc
  obtain ⟨a, _, rfl⟩ := hc
  by_cases hid : (a.id == e.categoryId) = true
  · rw [if_pos hid]
  · rw [if_neg hid] at hcid ⊢
    exact absurd (by simpa using hcid) (by simpa using hid)

/-- Entries naming other ids do not disturb the `sortOrder` of categories
with the given id. -/
theorem applyOrders_keeps (target : String) (v : Int) :
    ∀ (orders : List Tree.OrderEntry) (st : List Tree.Category),
      (∀ o ∈ orders, o.categoryId ≠ target) →
      (∀ c ∈ st, c.id = target → c.sortOrder = v) →
      ∀ c ∈ applyOrders st orders, c.id = target → c.sortOrder = v := by
  intro orders
  induction orders with
  | nil => intro st _ hst; simpa [applyOrders] using hst
  | cons o rest ih =>
      intro st hne hst
      rw [applyOrders, List.foldl_cons]
      refine ih _ (fun o' ho' => hne o' (List.mem_cons_of_mem o ho')) ?_
      intro c hc hcid
      unfold Tree.catUpdate at hc
      rw [List.mem_map] at hc
      obtain ⟨a, ha, rfl⟩ := hc
      by_cases hid : (a.id == o.categoryId) = true
      · rw [if_pos hid] at hcid ⊢
        have : a.id = target := hcid
        have : o.categoryId = target := by
          rw [← this]
          exact ((by simpa using hid) : a.id = o.categoryId).symm
        exact absurd this (hne o (List.mem_cons_self o rest))
      · rw [if_neg hid] at hcid ⊢
        exact hst a ha hcid

/-- `applyOrders` over an appended list is sequential composition. -/
theorem applyOrders_append (st : List Tree.Category)
    (xs ys : List Tree.OrderEntry) :
    applyOrders st (xs ++ ys) = applyOrders (applyOrders st xs) ys := by
  unfold applyOrders
  rw [List.foldl_append]

/-- C9: for every entry `{categoryId, sortOrder}` that `reorderCategories`
applies (every entry is applied, landing in `successful` with `failed`
empty), only the named category's `sortOrder` is written: the final store
is pointwise field-identical to the initial one except possibly for
`sortOrder` of named categories, a category named by no entry is entirely
unchanged, and after the last entry naming a given id that category's
`sortOrder` equals that entry's value. -/
theorem c9_reorder_frame (store : List Tree.Category)
    (orders : List Tree.OrderEntry) :
    List.Forall₂
      (fun a b => sameExceptSortOrder a b ∧
        ((∀ o ∈ orders, o.categoryId ≠ a.id) → b = a))
      store (Tree.reorderCategories store orders).1 ∧
    (Tree.reorderCategories store orders).2.successful.length =
      orders.length ∧
    (Tree.reorderCategories store orders).2.failed = [] ∧
    ∀ front e back, orders = front ++ e :: back →
      (∀ o ∈ back, o.categoryId ≠ e.categoryId) →
      ∀ c ∈ (Tree.reorderCategories store orders).1,
        c.id = e.categoryId → c.sortOrder = e.sortOrder := by
  have hfst : (Tree.reorderCategories store orders).1 =
      applyOrders store orders :=
    reorderCategories_fst orders store { successful := [], failed := [] }
  have hcounts := reorderCategories_counts orders store
    { successful := [], failed := [] }
  refine ⟨?_, ?_, ?_, ?_⟩
  · rw [hfst]
    exact applyOrders_forall2 orders store
  · have := hcounts.1
    simpa using this
  · exact hcounts.2
  · intro front e back hsplit hback c hc hcid
    rw [hfst, hsplit] at hc
    rw [applyOrders_append, show e :: back = [e] ++ back from rfl,
      applyOrders_append] at hc
    refine applyOrders_keeps e.categoryId e.sortOrder back
      (applyOrders (applyOrders store front) [e]) hback ?_ c hc hcid
    intro c' hc' hcid'
    have : applyOrders (applyOrders store front) [e] =
        (Tree.catUpdate (applyOrders store front) e.categoryId
          (fun c => { c with sortOrder := e.sortOrder })).1 := rfl
    rw [this] at hc'
    exact applyOrders_step_sets (applyOrders store front) e c' hc' hcid'

/-- Witness for C9 at a concrete store and order list. -/
theorem c9_reorder_frame_witness :
    ({ id := "a1", name := "A", slug := "a", parent := none, level := 0,
       path := "", sortOrder := 7, status := "active" } : Tree.Category).sortOrder = 7 :=
  (c9_reorder_frame
      [({ id := "a1", name := "A", slug := "a", parent := none, level := 0,
          path := "", sortOrder := 0, status := "active" } : Tree.Category)]
      [{ categoryId := "a1", sortOrder := 7 }]).2.2.2
    [] { categoryId := "a1", sortOrder := 7 } [] rfl (by simp)
    { id := "a1", name := "A", slug := "a", parent := none, level := 0,
      path := "", sortOrder := 7, status := "active" }
    (by decide) rfl

/-! ## C1 — ledger/product consistency on product update -/

/-- The state before the C1 failing update: one product with quantity 10
and an empty ledger. -/
def c1Before : Stock.AppState :=
  { products := [{ id := "p1", name := "Widget", quantity := 10 }],
    transactions := [] }

/-- C1 fails on the code: updating the product from quantity 10 to 7
through `ProductController.updateProduct` appends an `adjustment` ledger
entry whose stored `quantity` is `3` — `createTransaction` forces
`adjustment` quantities to `|newQuantity - previousQuantity|` — while
`newQuantity - previousQuantity = -3`; so
`E.newQuantity - E.previousQuantity` does NOT equal the type-normalized
signed `E.quantity` on any decreasing update.  (`E.newQuantity` does equal
the product's stored quantity after the write.) -/
theorem c1_ledger_delta_mismatch :
    (Stock.updateProductFlow c1Before "p1"
        { name := none, quantity := some 7 }).1.transactions =
      [{ product := "p1", type := "adjustment", quantity := 3,
         previousQuantity := 10, newQuantity := 7,
         reason := "Product update", performedBy := "User" }] ∧
    Stock.pFindById
        (Stock.updateProductFlow c1Before "p1"
          { name := none, quantity := some 7 }).1.products "p1" =
      some { id := "p1", name := "Widget", quantity := 7 } ∧
    ∀ tx ∈ (Stock.updateProductFlow c1Before "p1"
        { name := none, quantity := some 7 }).1.transactions,
      tx.newQuantity - tx.previousQuantity ≠ tx.quantity :=
  ⟨rfl, rfl, by decide⟩

/-! ## C2 — path derivation at category creation -/

/-- A root category as stored by the embedding, with a realistic
object-id-style id distinct from its slug. -/
def c2Electronics : Tree.Category :=
  { id := "64a0f1b2c3d4e5f601000001", name := "Electronics",
    slug := "electronics", parent := none, level := 0, path := "",
    sortOrder := 0, status := "active" }

/-- C2 fails on the code: creating a child under a root parent stores the
PARENT'S SLUG chain in `path` (the `categorySchema` save hook builds
`parent.path + "/" + parent.slug`), not the chain of ancestor ids the
claim requires; `level` is derived correctly.  The DAO layer itself
expects id segments: `getAncestors` on the newly created child splits the
slug-based path, finds no category with id `"electronics"`, and returns
`[]` instead of the parent. -/
theorem c2_create_path_uses_slugs :
    (Tree.categoryCreate [c2Electronics]
        { name := "Computers", parent := some "64a0f1b2c3d4e5f601000001",
          sortOrder := 0, status := "active" }
        "64a0f1b2c3d4e5f601000002").map
      (fun r => (r.2.path, r.2.level)) = .ok ("electronics", 1) ∧
    "electronics" ≠ c2Electronics.id ∧
    (Tree.categoryCreate [c2Electronics]
        { name := "Computers", parent := some "64a0f1b2c3d4e5f601000001",
          sortOrder := 0, status := "active" }
        "64a0f1b2c3d4e5f601000002").map
      (fun r => Tree.getAncestors r.1 "64a0f1b2c3d4e5f601000002") =
      .ok (.ok []) :=
  ⟨rfl, by decide, rfl⟩

/-! ## C3 — cycle prevention in `moveCategory` -/

/-- C3 fails on the code: `moveCategory(X, X)` — moving a category under
ITSELF — is not rejected.  The descendant check does not cover `X` itself
(a category never matches its own descendant path pattern), so the call
succeeds and stores `parent = X`, `level = X.level + 1`, creating a
self-cycle instead of failing with an invalid-operation error. -/
theorem c3_move_to_self_succeeds :
    Tree.moveCategory
        [({ id := "x1", name := "X", slug := "x", parent := none,
            level := 0, path := "", sortOrder := 0,
            status := "active" } : Tree.Category)]
        "x1" (some "x1") none =
      .ok ([{ id := "x1", name := "X", slug := "x", parent := some "x1",
              level := 1, path := "x1", sortOrder := 0,
              status := "active" }],
           some { id := "x1", name := "X", slug := "x",
                  parent := some "x1", level := 1, path := "x1",
                  sortOrder := 0, status := "active" }) :=
  rfl

/-! ## C4 — descendant cascade after `moveCategory` -/

/-- The Electronics → Computers → Laptops chain with id-based materialized
paths, as the claim's scenario assumes. -/
def c4Store : List Tree.Category :=
  [{ id := "e1", name := "Electronics", slug := "electronics",
     parent := none, level := 0, path := "", sortOrder := 0,
     status := "active" },
   { id := "c1", name := "Computers", slug := "computers",
     parent := some "e1", level := 1, path := "e1", sortOrder := 0,
     status := "active" },
   { id := "l1", name := "Laptops", slug := "laptops",
     parent := some "c1", level := 2, path := "e1/c1", sortOrder := 0,
     status := "active" }]

/-- C4 fails on the code: after moving Computers to root, Laptops keeps
its OLD `level = 2` and `path = "e1/c1"` instead of the claimed `level 1`
and path `"c1"`.  The cascade re-fetches descendants AFTER the moved
node's path has been rewritten, so the descendant query's anchored pattern
(built from the new path) no longer matches the descendants' still-old
paths and the cascade updates nothing. -/
theorem c4_descendant_cascade_noop :
    Tree.moveCategory c4Store "c1" none none =
      .ok ([{ id := "e1", name := "Electronics", slug := "electronics",
              parent := none, level := 0, path := "", sortOrder := 0,
              status := "active" },
            { id := "c1", name := "Computers", slug := "computers",
              parent := none, level := 0, path := "", sortOrder := 0,
              status := "active" },
            { id := "l1", name := "Laptops", slug := "laptops",
              parent := some "c1", level := 2, path := "e1/c1",
              sortOrder := 0, status := "active" }],
           some { id := "c1", name := "Computers", slug := "computers",
                  parent := none, level := 0, path := "", sortOrder := 0,
                  status := "active" }) ∧
    ((2 : Int) ≠ 1 ∧ "e1/c1" ≠ "c1") :=
  ⟨rfl, by decide⟩
